import Mathlib

/-!
Verification development for the revision-history analysis engine of the
`offal` repository (`src/offal/commands/history.py` and
`src/offal/commands/related.py`).

Python strings are modelled as `List Char`; Python integers as `Int`/`Nat`.
Each definition is a direct translation of the corresponding Python
function; definitions whose doc comment says so follow the wording of the
specification instead, for refinement comparisons.
-/

/-- Abbreviation for the model of a Python string. -/
abbrev Str := List Char

/-- Converts a Lean string literal to its `List Char` model. -/
def strL (s : String) : Str := s.data

/-- Model of Python `s.startswith(pat)`: the second list is a prefix of the
first.  Written directly by recursion on both lists. -/
def startsWithL : Str → Str → Bool
  | _, [] => true
  | [], _ :: _ => false
  | c :: cs, p :: ps => c == p && startsWithL cs ps

/-- Model of Python `pat in hay` (contiguous substring test; the empty
pattern occurs in every string, including the empty one). -/
def containsL : Str → Str → Bool
  | [], pat => pat.isEmpty
  | c :: cs, pat => startsWithL (c :: cs) pat || containsL cs pat

/-- ASCII model of Python `str.lower` on a single character. -/
def lowerChar (c : Char) : Char :=
  if 65 ≤ c.toNat ∧ c.toNat ≤ 90 then Char.ofNat (c.toNat + 32) else c

/-- ASCII model of Python `str.lower`. -/
def lowerStr (s : Str) : Str := s.map lowerChar

/-!
## Diff hunk parser (`check_line_in_diff`, history.py lines 150-165)

The Python function receives a `git` patch body decoded to text and split
into lines, together with the tracked line number, and returns a boolean.
The loop of the Python function is translated into the recursion
`checkAux`, whose extra arguments are the two mutable locals
`line_offset` and `line_number`.
-/

/-- Loop of `check_line_in_diff`: `offset` and `lineNumber` are the Python
locals `line_offset` and `line_number`.  The Python `return True` inside
the loop becomes the `true` branch, and falling off the loop returns
`false`. -/
def checkAux : List Str → Int → Int → Bool
  | [], _, _ => false
  | line :: rest, offset, lineNumber =>
    if startsWithL line ['+'] then
      checkAux rest (offset + 1) lineNumber
    else if startsWithL line ['-'] then
      if offset - 1 + lineNumber = 0 then true
      else checkAux rest (offset - 1) lineNumber
    else if startsWithL line ['@'] then
      checkAux rest offset lineNumber
    else if offset < 0 then
      checkAux rest offset (lineNumber + 1)
    else if offset > 0 then
      checkAux rest offset (lineNumber - 1)
    else
      checkAux rest offset lineNumber

/-- Translation of `check_line_in_diff(diff, line_number)`: the diff body
is already decoded and split into lines. -/
def check_line_in_diff (diffLines : List Str) (lineNumber : Int) : Bool :=
  checkAux diffLines 0 lineNumber

/-!
## The tagged-line pass machine of the specification (§4.1)

The specification describes the parser as a single top-to-bottom pass over
a sequence of tagged diff lines.  The machine below follows the wording of
the specification; the tagging function `lineTag` mirrors the prefix tests
of the Python code (`+` added, `-` removed, `@` hunk header, anything else
context).
-/

/-- The four tags of a diff line in the data model of the specification. -/
inductive DiffTag where
  | added
  | removed
  | context
  | hunkHeader
deriving DecidableEq, Repr

/-- Tags a raw diff line the way the Python prefix tests classify it. -/
def lineTag (line : Str) : DiffTag :=
  if startsWithL line ['+'] then DiffTag.added
  else if startsWithL line ['-'] then DiffTag.removed
  else if startsWithL line ['@'] then DiffTag.hunkHeader
  else DiffTag.context

/-- State of the single pass described in §4.1 of the specification:
signed offset, tracked line, and whether `modified` was ever set. -/
structure ParseState where
  offset : Int
  trackedLine : Int
  modified : Bool
deriving DecidableEq, Repr

/-- One transition of the pass machine, following the wording of §4.1:
added increments the offset; removed decrements it and records
`modified` exactly when `offset + trackedLine = 0` after the decrement;
context remaps the tracked line according to the sign of the offset; a
hunk header changes no state (no per-hunk reset). -/
def stepSpec (s : ParseState) : DiffTag → ParseState
  | DiffTag.added => ⟨s.offset + 1, s.trackedLine, s.modified⟩
  | DiffTag.removed =>
      ⟨s.offset - 1, s.trackedLine,
        s.modified || decide (s.offset - 1 + s.trackedLine = 0)⟩
  | DiffTag.context =>
      if s.offset < 0 then ⟨s.offset, s.trackedLine + 1, s.modified⟩
      else if s.offset > 0 then ⟨s.offset, s.trackedLine - 1, s.modified⟩
      else s
  | DiffTag.hunkHeader => s

/-- The full pass of §4.1 over a sequence of tagged lines, starting from
offset `0`, the given tracked line, and `modified = false`. -/
def runSpec (tags : List DiffTag) (trackedLine : Int) : ParseState :=
  tags.foldl stepSpec ⟨0, trackedLine, false⟩

/-- The §4.1 contract `evaluate(diffLines, trackedLine) ->
(modified, remappedLine)`, following the wording of the specification
(the pass always runs to the end; the remapped line is returned). -/
def evaluate (diffLines : List Str) (trackedLine : Int) : Bool × Int :=
  let s := runSpec (diffLines.map lineTag) trackedLine
  (s.modified, s.trackedLine)

/-!
## Line provenance tracer (`trace_line_history`, history.py lines 128-139)

The tracer walks the first-parent ancestry chain from an initial commit
to the root.  The chain is modelled by the inductive type `CommitChain`:
`root c` is a commit with no parents (the Python loop appends it and
stops), and `node c diffs parent` is a commit whose first parent is the
head of `parent`, together with the value the commit source returns for
`commit.diff(parent_commit, paths=file_path, create_patch=True)` for the
traced file (a list of per-file patches, each with its `a_path` and its
decoded patch body split into lines).  The inductive type encodes the
hypothesis that the first-parent chain is finite and ends at a parentless
root; the Lean recursion is structural, which is the termination
argument for the trace.
-/

/-- Commit metadata used by the engine: an identifier standing for the
hash, the author name and email (absent fields model Python `None` or an
empty string), and the committed timestamp. -/
structure Commit where
  id : Nat
  authorName : Option Str
  authorEmail : Option Str
  committedDate : Int
deriving DecidableEq, Repr

/-- One per-file patch of a `commit.diff(parent)` call: the `a_path` of
the file and the decoded patch body, split into lines (the body starts at
the first hunk header; the `---`/`+++` header lines are not part of it). -/
structure FileDiff where
  a_path : Str
  lines : List Str
deriving DecidableEq, Repr

/-- A finite first-parent ancestry chain ending at a parentless root
commit.  Each non-root commit carries the file-scoped diff list against
its first parent. -/
inductive CommitChain where
  | root (c : Commit)
  | node (c : Commit) (diffs : List FileDiff) (parent : CommitChain)

/-- Translation of `line_modified` (history.py lines 142-147): scan the
diff list, and on the first entry whose `a_path` equals the traced file
return the result of `check_line_in_diff` on its body; if no entry
matches, return `False`. -/
def line_modified (file_path : Str) (line_number : Int) (diffs : List FileDiff) : Bool :=
  match diffs.find? (fun d => d.a_path == file_path) with
  | some d => check_line_in_diff d.lines line_number
  | none => false

/-- Translation of `trace_line_history` (history.py lines 128-139).  Note
that the Python function passes the same immutable `line_number` to
`line_modified` at every iteration: `check_line_in_diff` rebinds its own
local parameter but returns only a boolean. -/
def trace_line_history (file_path : Str) (line_number : Int) : CommitChain → List Commit
  | CommitChain.root c => [c]
  | CommitChain.node c diffs parent =>
    if line_modified file_path line_number diffs then
      c :: trace_line_history file_path line_number parent
    else
      trace_line_history file_path line_number parent

/-- The parentless commit terminating a first-parent chain. -/
def rootMeta : CommitChain → Commit
  | CommitChain.root c => c
  | CommitChain.node _ _ parent => rootMeta parent

/-- The non-root ancestry steps of a chain, newest first: each step is a
commit paired with its diff list against its first parent. -/
def chainSteps : CommitChain → List (Commit × List FileDiff)
  | CommitChain.root _ => []
  | CommitChain.node c diffs parent => (c, diffs) :: chainSteps parent

/-- Tracer that follows the wording of §4.2 of the specification instead
of the code: at each step the §4.1 contract `evaluate` is run, and the
remapped tracked line it returns is fed into the next iteration. -/
def trace_line_history_remap (file_path : Str) : Int → CommitChain → List Commit
  | _, CommitChain.root c => [c]
  | line, CommitChain.node c diffs parent =>
    let body := match diffs.find? (fun d => d.a_path == file_path) with
      | some d => d.lines
      | none => []
    let r := evaluate body line
    if r.1 then c :: trace_line_history_remap file_path r.2 parent
    else trace_line_history_remap file_path r.2 parent

/-- A demonstration file path and three commits forming a chain in which
the remapped tracked line differs from the original one after the first
ancestry step. -/
def fileF : Str := strL "f.txt"

/-- Newest commit of the remap demonstration chain. -/
def commitA : Commit := ⟨1, none, none, 0⟩

/-- Middle commit of the remap demonstration chain. -/
def commitB : Commit := ⟨2, none, none, 0⟩

/-- Root commit of the remap demonstration chain. -/
def commitC : Commit := ⟨3, none, none, 0⟩

/-- Chain for the remap demonstration: the newest diff remaps tracked
line 1 to 0 (one added line above, then a context line), and the next
diff removes the first line of the file. -/
def chainRemapDemo : CommitChain :=
  CommitChain.node commitA [⟨fileF, [strL "+x", strL " c"]⟩]
    (CommitChain.node commitB [⟨fileF, [strL "-y"]⟩] (CommitChain.root commitC))

/-!
## The three-commit scenario of claim C2

File `a.txt` is created in root commit C0 with the three lines `one`,
`two`, `three`; commit C1 inserts `zero` at the top; commit C2 replaces
`two` (now at line 3) by `TWO`.  The diff lists below are the values of
`commit.diff(parent_commit, paths="a.txt", create_patch=True)` with the
default three lines of context: the commit is the `a` side and the parent
the `b` side, so a line introduced by the commit appears as a removed
line of the patch.  (Running the engine on the forward orientation of the
same two patches also yields the result proved below.)
-/

/-- The traced file of the scenario. -/
def fileA : Str := strL "a.txt"

/-- Root commit C0 of the scenario. -/
def commitC0 : Commit := ⟨0, none, none, 0⟩

/-- Commit C1 of the scenario (inserts a line at the top). -/
def commitC1 : Commit := ⟨1, none, none, 0⟩

/-- Commit C2 of the scenario (edits the original line 2, now line 3). -/
def commitC2 : Commit := ⟨2, none, none, 0⟩

/-- Patch list of C2 against C1. -/
def diffsC2 : List FileDiff :=
  [⟨fileA, [strL "@@ -1,4 +1,4 @@", strL " zero", strL " one", strL "-TWO",
    strL "+two", strL " three"]⟩]

/-- Patch list of C1 against C0. -/
def diffsC1 : List FileDiff :=
  [⟨fileA, [strL "@@ -1,4 +1,3 @@", strL "-zero", strL " one", strL " two",
    strL " three"]⟩]

/-- First-parent chain of the scenario after C2. -/
def scenarioChain : CommitChain :=
  CommitChain.node commitC2 diffsC2
    (CommitChain.node commitC1 diffsC1 (CommitChain.root commitC0))

/-!
## Revision filters (`filter_revisions`, `filter_by_author`,
## `filter_by_date`, history.py lines 101-108 and 168-182)
-/

/-- The string Python compares against for an author field: the lowered
field when it is truthy, the empty string when it is `None` or empty
(`commit.author.name.lower() if commit.author.name else ""`). -/
def optLower : Option Str → Str
  | some s => lowerStr s
  | none => []

/-- The kept-commit predicate of `filter_by_author`: the lowered author
argument occurs as a substring of the lowered name field or of the
lowered email field. -/
def author_matches (author : Str) (c : Commit) : Bool :=
  containsL (optLower c.authorName) (lowerStr author) ||
  containsL (optLower c.authorEmail) (lowerStr author)

/-- Translation of `filter_by_author` (history.py lines 168-174). -/
def filter_by_author (revisions : List Commit) (author : Str) : List Commit :=
  revisions.filter (author_matches author)

/-- The author predicate as claim C7 words it: a missing name or email
field never matches, whatever the author string. -/
def author_matches_fields (author : Str) (c : Commit) : Bool :=
  (match c.authorName with
    | some n => containsL (lowerStr n) (lowerStr author)
    | none => false) ||
  (match c.authorEmail with
    | some e => containsL (lowerStr e) (lowerStr author)
    | none => false)

/-- Translation of `filter_by_date` (history.py lines 177-182): inclusive
bounds against the committed timestamp. -/
def filter_by_date (revisions : List Commit) (before after : Option Int) : List Commit :=
  revisions.filter (fun c =>
    (match before with
      | none => true
      | some b => decide (c.committedDate ≤ b)) &&
    (match after with
      | none => true
      | some a => decide (a ≤ c.committedDate)))

/-- The `if author:` statement of `filter_revisions`: the author filter
runs only for a present, non-empty author string (Python treats both
`None` and the empty string as falsy). -/
def applyAuthorFilter (revisions : List Commit) : Option Str → List Commit
  | some a => if a.isEmpty then revisions else filter_by_author revisions a
  | none => revisions

/-- The `if before or after:` statement of `filter_revisions` (datetime
values are always truthy in Python, so presence is the test). -/
def applyDateFilter (revisions : List Commit) (before after : Option Int) : List Commit :=
  if before.isSome || after.isSome then filter_by_date revisions before after
  else revisions

/-- Translation of `filter_revisions` (history.py lines 101-108). -/
def filter_revisions (revisions : List Commit) (author : Option Str)
    (before after : Option Int) : List Commit :=
  applyDateFilter (applyAuthorFilter revisions author) before after

/-- A commit with neither author name nor author email. -/
def anonCommit : Commit := ⟨7, none, none, 0⟩

/-- A commit authored by Alice, with both fields present. -/
def aliceCommit : Commit := ⟨10, some (strL "Alice Smith"), some (strL "alice@example.com"), 0⟩

/-- A commit authored by Bob, with no email field. -/
def bobCommit : Commit := ⟨11, some (strL "Bob Stone"), none, 5⟩

/-- A demonstration commit list for the author filter. -/
def demoRevs : List Commit := [aliceCommit, bobCommit]

/-!
## Blame lookup (`get_blame_item`, history.py lines 111-115)

The blame query itself belongs to the commit source; its result for a
file and line is a list of blame entries, each a commit paired with the
lines it accounts for.  `get_blame_item` raises exactly one error, the
`ValueError` for an empty blame result, which is the engine's
`LineNotFoundError`; the error taxonomy of the specification is the
inductive type below.
-/

/-- The error kinds of the engine's error taxonomy. -/
inductive OffalErrorKind where
  | fileNotFound
  | lineNotFound
  | invalidDateFormat
  | repositoryError
deriving DecidableEq, Repr

/-- Translation of `get_blame_item` (history.py lines 111-115): an empty
blame result raises the line-not-found error, a non-empty one yields its
first entry (`next(iter(blame_result))`). -/
def get_blame_item (blameResult : List (Commit × List Str)) :
    Except OffalErrorKind (Commit × List Str) :=
  match blameResult with
  | [] => Except.error OffalErrorKind.lineNotFound
  | item :: _ => Except.ok item

/-!
## Co-occurrence counting and ranking

Two places of the code count how often files change together with a
target file.  `get_files_changed` (history.py lines 433-467) counts,
over every commit of the target file's history, each changed path other
than the target, and then ranks the files of one commit by Python key
`(-count, file)` with the target pinned first through an infinite count
(`float('inf')`, modelled by the top element of `ℕ∞`).
`show_related_files` (related.py lines 30-69) counts every changed path,
the target included, and ranks with `Counter.most_common()`: a stable
sort by descending count whose ties keep first-insertion order.  A
commit's changed-path list is one element of `history` below, in
traversal order.
-/

/-- Counting loop of `get_files_changed` (history.py lines 442-446): the
multiset of counted paths, one occurrence per changed path per commit of
the target file's history, the target file itself excluded. -/
def co_occurrence_entries (target_file : Str) (history : List (List Str)) : List Str :=
  (history.map (fun fs => fs.filter (fun f => !(f == target_file)))).flatten

/-- The value of the `file_co_occurrences` counter at one file. -/
def co_occurrence_count (target_file : Str) (history : List (List Str)) (f : Str) : Nat :=
  (co_occurrence_entries target_file history).count f

/-- Keys of a Python `Counter` built from a list: first-occurrence order,
each key once. -/
def dedupFirst : List Str → List Str
  | [] => []
  | x :: xs => x :: (dedupFirst xs).filter (fun y => !(y == x))

/-- Items of a Python `Counter` built from a list: the keys in
first-insertion order, each with its count. -/
def counter_items (l : List Str) : List (Str × Nat) :=
  (dedupFirst l).map (fun k => (k, l.count k))

/-- Ordering used by `Counter.most_common()`: descending count; the sort
is stable, so ties keep the insertion order of the counter. -/
def countDescending (x y : Str × Nat) : Prop := y.2 ≤ x.2

instance countDescending_decidable : DecidableRel countDescending :=
  fun x y => inferInstanceAs (Decidable (y.2 ≤ x.2))

/-- Model of `Counter.most_common()`: a stable sort of the counter items
by descending count (Mathlib's insertion sort is stable, like Python's
`sorted`). -/
def most_common (l : List Str) : List (Str × Nat) :=
  List.insertionSort countDescending (counter_items l)

/-- Counting loop of `show_related_files` (related.py lines 41-43): every
changed path of every commit is counted, with no exclusion. -/
def file_changes_entries (history : List (List Str)) : List Str :=
  history.flatten

/-- The summary ranking printed by `show_related_files` (related.py lines
66-67): `file_changes.most_common()` over the whole history of the
target file. -/
def related_summary_ranking (history : List (List Str)) : List (Str × Nat) :=
  most_common (file_changes_entries history)

/-- Lexicographic comparison of two strings by code point, the order
Python uses on `str` (a proper prefix sorts first). -/
def lexLEb : Str → Str → Bool
  | [], _ => true
  | _ :: _, [] => false
  | a :: as, b :: bs => if a < b then true else if b < a then false else lexLEb as bs

/-- Sort order of the `get_files_changed` output (history.py line 461,
key `(-count, file)`): strictly greater count first, ties by ascending
file path. -/
def rankOrder (x y : Str × ℕ∞) : Prop :=
  y.2 < x.2 ∨ (x.2 = y.2 ∧ lexLEb x.1 y.1 = true)

instance rankOrder_decidable : DecidableRel rankOrder :=
  fun x y => inferInstanceAs (Decidable (y.2 < x.2 ∨ (x.2 = y.2 ∧ lexLEb x.1 y.1 = true)))

/-- One entry of the `get_files_changed` output (history.py lines
452-458): the target file carries the infinite count, every other file
its co-occurrence count. -/
def rank_entry (target_file : Str) (history : List (List Str)) (f : Str) : Str × ℕ∞ :=
  if f == target_file then (f, (⊤ : ℕ∞))
  else (f, (co_occurrence_count target_file history f : ℕ∞))

/-- Ranking step of `get_files_changed` (history.py lines 448-462): one
entry per file changed in the current commit, sorted by descending count
with ties by ascending path, truncated to `limit` entries
(`islice(output, limit)`). -/
def get_files_changed (target_file : Str) (history : List (List Str))
    (current_files : List Str) (limit : Nat) : List (Str × ℕ∞) :=
  (List.insertionSort rankOrder (current_files.map (rank_entry target_file history))).take limit

/-- A two-commit demonstration history of target file `a.txt`. -/
def demoHistory : List (List Str) :=
  [[strL "a.txt", strL "b.txt"], [strL "a.txt", strL "b.txt", strL "c.txt"]]

/-!
## Theorems

The claims are settled below: each claim theorem carries a doc comment
naming the claim, preceded by the helper lemmas its proof needs.
-/

/-!
### Lemmas relating the Python loop to the pass machine
-/

/-- Once `modified` is set it stays set for the rest of the pass. -/
theorem runSpec_modified_mono (tags : List DiffTag) (s : ParseState)
    (h : s.modified = true) : (tags.foldl stepSpec s).modified = true := by
  induction tags generalizing s with
  | nil => exact h
  | cons t rest ih =>
    cases t with
    | added => exact ih _ h
    | removed => exact ih _ (by simp [stepSpec, h])
    | context =>
      simp only [List.foldl_cons, stepSpec]
      split
      · exact ih _ h
      · split
        · exact ih _ h
        · exact ih _ h
    | hunkHeader => exact ih _ h

/-- The Python loop computes exactly the `modified` component of the pass
machine, for every starting offset and tracked line. -/
theorem checkAux_eq_runSpec (lines : List Str) :
    ∀ offset lineNumber : Int,
      checkAux lines offset lineNumber =
        ((lines.map lineTag).foldl stepSpec ⟨offset, lineNumber, false⟩).modified := by
  induction lines with
  | nil => intro offset lineNumber; rfl
  | cons line rest ih =>
    intro offset lineNumber
    simp only [List.map_cons, List.foldl_cons]
    by_cases hplus : startsWithL line ['+'] = true
    · simp [checkAux, hplus, lineTag, stepSpec, ih]
    · by_cases hminus : startsWithL line ['-'] = true
      · by_cases hzero : offset - 1 + lineNumber = 0
        · simp only [checkAux, hplus, hminus, if_true, if_false, hzero,
            Bool.false_eq_true, lineTag, stepSpec]
          exact (runSpec_modified_mono _ _ (by simp)).symm
        · simp only [checkAux, hplus, hminus, hzero, Bool.false_eq_true,
            if_true, if_false, lineTag, stepSpec]
          simpa using ih (offset - 1) lineNumber
      · by_cases hat : startsWithL line ['@'] = true
        · simp only [checkAux, hplus, hminus, hat, Bool.false_eq_true,
            if_true, if_false, lineTag, stepSpec]
          exact ih offset lineNumber
        · have htag : lineTag line = DiffTag.context := by
            simp [lineTag, hplus, hminus, hat]
          rw [htag]
          by_cases hneg : offset < 0
          · simp only [checkAux, hplus, hminus, hat, Bool.false_eq_true,
              if_true, if_false, hneg, stepSpec]
            exact ih offset (lineNumber + 1)
          · by_cases hpos : offset > 0
            · simp only [checkAux, hplus, hminus, hat, Bool.false_eq_true,
                if_true, if_false, hneg, hpos, stepSpec]
              exact ih offset (lineNumber - 1)
            · simp only [checkAux, hplus, hminus, hat, Bool.false_eq_true,
                if_true, if_false, hneg, hpos, stepSpec]
              exact ih offset lineNumber

/-- Claim C3: for every sequence of diff lines and every tracked line
number, `check_line_in_diff` computes its result in a single
top-to-bottom pass with a signed offset initialised to 0, with the
transitions described by `stepSpec` (added: offset + 1; removed:
offset - 1 and `modified` exactly when the decremented offset plus the
tracked line is 0; context: tracked line remapped by the sign of the
offset; hunk header: no state change, no per-hunk reset), and the
returned boolean is the `modified` flag of that pass. -/
theorem check_line_in_diff_eq_specPass (diffLines : List Str) (lineNumber : Int) :
    check_line_in_diff diffLines lineNumber =
      (runSpec (diffLines.map lineTag) lineNumber).modified :=
  checkAux_eq_runSpec diffLines 0 lineNumber

/-- No line starts with both a plus sign and a minus sign. -/
theorem not_plus_and_minus (line : Str) :
    ¬(startsWithL line ['+'] = true ∧ startsWithL line ['-'] = true) := by
  rintro ⟨h1, h2⟩
  cases line with
  | nil => simp [startsWithL] at h1
  | cons c cs =>
    simp only [startsWithL, Bool.and_eq_true, beq_iff_eq] at h1 h2
    rw [h1.1] at h2
    exact absurd h2.1 (by decide)

/-- A raw line tagged `removed` is exactly a line starting with `-`
(the `+` test of the Python code precedes the `-` test, but no line
starts with both characters). -/
theorem lineTag_removed_iff (line : Str) :
    lineTag line = DiffTag.removed ↔ startsWithL line ['-'] = true := by
  by_cases hplus : startsWithL line ['+'] = true
  · have hminus : ¬startsWithL line ['-'] = true :=
      fun hm => not_plus_and_minus line ⟨hplus, hm⟩
    simp [lineTag, hplus, hminus]
  · by_cases hminus : startsWithL line ['-'] = true
    · simp [lineTag, hplus, hminus]
    · by_cases hat : startsWithL line ['@'] = true
      · simp [lineTag, hplus, hminus, hat]
      · simp [lineTag, hplus, hminus, hat]

/-- Auxiliary form of claim C9 with the loop state generalised. -/
theorem checkAux_no_removed (lines : List Str)
    (h : ∀ l ∈ lines, lineTag l ≠ DiffTag.removed) :
    ∀ offset lineNumber : Int, checkAux lines offset lineNumber = false := by
  induction lines with
  | nil => intro _ _; rfl
  | cons line rest ih =>
    intro offset lineNumber
    have hminus : startsWithL line ['-'] = false := by
      by_contra hb
      exact h line (List.mem_cons_self line rest)
        ((lineTag_removed_iff line).2 (by simpa using hb))
    have hrest : ∀ l ∈ rest, lineTag l ≠ DiffTag.removed := fun l hl =>
      h l (List.mem_cons_of_mem line hl)
    by_cases hplus : startsWithL line ['+'] = true
    · simp [checkAux, hplus, ih hrest]
    · by_cases hat : startsWithL line ['@'] = true
      · simp [checkAux, hplus, hminus, hat, ih hrest]
      · by_cases hneg : offset < 0
        · simp [checkAux, hplus, hminus, hat, hneg, ih hrest]
        · by_cases hpos : offset > 0
          · simp [checkAux, hplus, hminus, hat, hneg, hpos, ih hrest]
          · simp [checkAux, hplus, hminus, hat, hneg, hpos, ih hrest]

/-- Claim C9: a diff body with no removed lines (only added, context and
hunk-header lines) never reports the tracked position as modified. -/
theorem check_line_in_diff_no_removed (diffLines : List Str) (lineNumber : Int)
    (h : ∀ l ∈ diffLines, lineTag l ≠ DiffTag.removed) :
    check_line_in_diff diffLines lineNumber = false :=
  checkAux_no_removed diffLines h 0 lineNumber

/-- Witness for claim C9 at a concrete insertion-only diff body. -/
theorem check_line_in_diff_no_removed_witness :
    check_line_in_diff [strL "@@ -1,0 +1,2 @@", strL "+zero", strL "+half", strL " one"] 3 = false :=
  check_line_in_diff_no_removed _ 3 (by decide)

/-- Counterexample to claim C1: on `chainRemapDemo` the code tracer and
the specification tracer that feeds the remapped line forward return
different sequences, so the code does not use the remapped line at the
next iteration. -/
theorem trace_line_history_not_threaded :
    trace_line_history fileF 1 chainRemapDemo = [commitB, commitC] ∧
    trace_line_history_remap fileF 1 chainRemapDemo = [commitC] ∧
    trace_line_history fileF 1 chainRemapDemo ≠
      trace_line_history_remap fileF 1 chainRemapDemo := by
  decide

/-- Claim C1 (amended): the tracer evaluates every ancestry step with the
original start line.  The trace is exactly the non-root steps whose diff,
evaluated at the unchanged `line_number`, reports the position as
modified, followed by the root commit; the remapped line computed inside
`check_line_in_diff` is discarded between steps because only the boolean
is returned. -/
theorem trace_line_history_uses_original_line (file_path : Str) (line_number : Int)
    (chain : CommitChain) :
    trace_line_history file_path line_number chain =
      (((chainSteps chain).filter (fun s => line_modified file_path line_number s.2)).map
        Prod.fst) ++ [rootMeta chain] := by
  induction chain with
  | root c => rfl
  | node c diffs parent ih =>
    by_cases h : line_modified file_path line_number diffs = true
    · simp [trace_line_history, chainSteps, rootMeta, h, ih]
    · simp [trace_line_history, chainSteps, rootMeta, h, ih]

/-- Claim C4: for every finite first-parent chain ending at a parentless
root, the trace terminates (the Lean translation is total by structural
recursion on the chain), returns a non-empty sequence, and its last
element is the parentless root commit of the chain. -/
theorem trace_line_history_reaches_root (file_path : Str) (line_number : Int)
    (chain : CommitChain) :
    trace_line_history file_path line_number chain ≠ [] ∧
    ∃ pre, trace_line_history file_path line_number chain = pre ++ [rootMeta chain] := by
  induction chain with
  | root c => exact ⟨by simp [trace_line_history], [], rfl⟩
  | node c diffs parent ih =>
    obtain ⟨hne, pre, hpre⟩ := ih
    by_cases h : line_modified file_path line_number diffs = true
    · refine ⟨by simp [trace_line_history, h], c :: pre, ?_⟩
      simp [trace_line_history, rootMeta, h, hpre]
    · refine ⟨by simpa [trace_line_history, h] using hne, pre, ?_⟩
      simp [trace_line_history, rootMeta, h, hpre]

/-- Claim C2 evaluated on the code: tracing line 3 of `a.txt` after C2
returns only the root commit C0.  The edit of C2 at the tracked position
is not detected, because the detector records a modification only when
the running offset plus the tracked line reaches zero, which cannot
happen for this single-line replacement at line 3; the result is not the
`[C2, C0]` the claim states. -/
theorem trace_scenario_returns_only_root :
    trace_line_history fileA 3 scenarioChain = [commitC0] ∧
    trace_line_history fileA 3 scenarioChain ≠ [commitC2, commitC0] := by
  decide

/-- Counterexample to claim C7: with the empty author string, a commit
whose name and email are both missing is kept by `filter_by_author`
(Python finds the empty string inside the empty fallback string), while
the field-wise predicate of the claim, under which a missing field never
matches, keeps nothing. -/
theorem filter_by_author_empty_author_keeps_anonymous :
    filter_by_author [anonCommit] [] = [anonCommit] ∧
    anonCommit.authorName = none ∧ anonCommit.authorEmail = none ∧
    List.filter (author_matches_fields []) [anonCommit] = [] := by
  decide

/-- Claim C7 (amended): for every non-empty author string the filter
keeps a commit exactly when the lowered string occurs in a present
lowered name field or a present lowered email field, a missing field
never matching; and the filter depends on the author string only through
its lowering, so author strings with the same lowering (such as `ALICE`
and `alice`) give identical results.  With the empty author string the
code keeps every commit, missing fields included, but the program never
applies the filter then (`if author:` skips it). -/
theorem filter_by_author_field_characterisation (revisions : List Commit) (author : Str)
    (h : author ≠ []) :
    filter_by_author revisions author = revisions.filter (author_matches_fields author) ∧
    ∀ author2 : Str, lowerStr author2 = lowerStr author →
      filter_by_author revisions author2 = filter_by_author revisions author := by
  have hnil : containsL [] (lowerStr author) = false := by
    cases author with
    | nil => exact absurd rfl h
    | cons a as => rfl
  constructor
  · unfold filter_by_author
    apply List.filter_congr
    intro c _
    unfold author_matches author_matches_fields
    cases hn : c.authorName with
    | none =>
      cases he : c.authorEmail with
      | none => simp [optLower, hnil]
      | some e => simp [optLower, hnil]
    | some n =>
      cases he : c.authorEmail with
      | none => simp [optLower, hnil]
      | some e => simp [optLower]
  · intro author2 h2
    unfold filter_by_author author_matches
    simp only [h2]

/-- Witness for claim C7: on the demonstration list, filtering by
`alice` agrees with the field-wise predicate, and filtering by `ALICE`
gives the same result as filtering by `alice`. -/
theorem filter_by_author_field_characterisation_witness :
    (filter_by_author demoRevs (strL "alice") =
      demoRevs.filter (author_matches_fields (strL "alice"))) ∧
    filter_by_author demoRevs (strL "ALICE") = filter_by_author demoRevs (strL "alice") := by
  have h := filter_by_author_field_characterisation demoRevs (strL "alice") (by decide)
  exact ⟨h.1, h.2 (strL "ALICE") (by decide)⟩

/-- Claim C10: for every commit list and every combination of author,
before and after arguments, the filtered result is a subsequence of
the input (kept commits stay in their relative order, each input
occurrence is used at most once, and nothing outside the input
appears), and every commit occurs in the output at most as often as in
the input. -/
theorem filter_revisions_subsequence (revisions : List Commit) (author : Option Str)
    (before after : Option Int) :
    List.Sublist (filter_revisions revisions author before after) revisions ∧
    ∀ c : Commit,
      (filter_revisions revisions author before after).count c ≤ revisions.count c := by
  have h1 : List.Sublist (applyAuthorFilter revisions author) revisions := by
    cases author with
    | none => exact List.Sublist.refl revisions
    | some a =>
      by_cases ha : a.isEmpty
      · simp only [applyAuthorFilter]
        rw [if_pos ha]
      · simp only [applyAuthorFilter]
        rw [if_neg ha]
        exact List.filter_sublist revisions
  have h2 : List.Sublist (filter_revisions revisions author before after)
      (applyAuthorFilter revisions author) := by
    unfold filter_revisions applyDateFilter
    by_cases hba : (before.isSome || after.isSome) = true
    · rw [if_pos hba]
      exact List.filter_sublist _
    · rw [if_neg hba]
  have hsub := h2.trans h1
  exact ⟨hsub, fun c => hsub.count_le c⟩

/-- Claim C8: for every blame query function, file path and line number,
an empty blame result makes `get_blame_item` fail with the
line-not-found error, and that is the only way it fails and the only
error kind it produces. -/
theorem get_blame_item_reports_line_not_found
    (blame : Str → Int → List (Commit × List Str)) (file_path : Str) (line_number : Int) :
    (blame file_path line_number = [] →
      get_blame_item (blame file_path line_number) =
        Except.error OffalErrorKind.lineNotFound) ∧
    (∀ e, get_blame_item (blame file_path line_number) = Except.error e →
      blame file_path line_number = [] ∧ e = OffalErrorKind.lineNotFound) := by
  constructor
  · intro h
    rw [h]
    rfl
  · intro e he
    cases hbr : blame file_path line_number with
    | nil =>
      rw [hbr] at he
      simp only [get_blame_item, Except.error.injEq] at he
      exact ⟨rfl, he.symm⟩
    | cons item rest =>
      rw [hbr] at he
      simp [get_blame_item] at he

/-- Witness for claim C8: the empty blame result of a concrete query
produces exactly the line-not-found error. -/
theorem get_blame_item_reports_line_not_found_witness :
    get_blame_item ((fun _ _ => ([] : List (Commit × List Str))) (strL "b.txt") 3) =
      Except.error OffalErrorKind.lineNotFound :=
  (get_blame_item_reports_line_not_found (fun _ _ => []) (strL "b.txt") 3).1 rfl

/-- Claim C5 (amended): the counting step of `get_files_changed`
increments its counter only for changed paths different from the target
file, so the target file never occurs among the counted entries (its
count is zero and it never becomes a key of that counter).  The counting
step of `show_related_files`, by contrast, does count the target file. -/
theorem co_occurrence_excludes_target (target_file : Str) (history : List (List Str)) :
    target_file ∉ co_occurrence_entries target_file history := by
  intro hmem
  unfold co_occurrence_entries at hmem
  rcases List.mem_flatten.1 hmem with ⟨l, hl, hm⟩
  rcases List.mem_map.1 hl with ⟨fs, _, rfl⟩
  have hp := (List.mem_filter.1 hm).2
  simp at hp

/-- Counterexample to claim C5: over the one-commit history of target
file `a.txt` in which that commit changes `a.txt` and `b.txt`, the
summary ranking of `show_related_files` contains the target file itself
as an entry, with count 1. -/
theorem related_ranking_contains_target :
    (strL "a.txt", 1) ∈ related_summary_ranking [[strL "a.txt", strL "b.txt"]] := by
  decide

/-- Comparing two strings with equal heads reduces to their tails. -/
theorem lexLEb_cons_self (a : Char) (as bs : Str) :
    lexLEb (a :: as) (a :: bs) = lexLEb as bs := by
  simp only [lexLEb]
  rw [if_neg (lt_irrefl a), if_neg (lt_irrefl a)]

/-- A strictly smaller head decides the comparison positively. -/
theorem lexLEb_cons_lt {a b : Char} (h : a < b) (as bs : Str) :
    lexLEb (a :: as) (b :: bs) = true := by
  simp only [lexLEb]
  rw [if_pos h]

/-- A strictly greater head decides the comparison negatively. -/
theorem lexLEb_cons_gt {a b : Char} (h : b < a) (as bs : Str) :
    lexLEb (a :: as) (b :: bs) = false := by
  simp only [lexLEb]
  rw [if_neg (lt_asymm h), if_pos h]

/-- Totality of the lexicographic comparison. -/
theorem lexLEb_total (x y : Str) : lexLEb x y = true ∨ lexLEb y x = true := by
  induction x generalizing y with
  | nil => exact Or.inl rfl
  | cons a as ih =>
    cases y with
    | nil => exact Or.inr rfl
    | cons b bs =>
      rcases lt_trichotomy a b with h | h | h
      · exact Or.inl (lexLEb_cons_lt h as bs)
      · subst h
        rcases ih bs with h2 | h2
        · exact Or.inl ((lexLEb_cons_self a as bs).trans h2)
        · exact Or.inr ((lexLEb_cons_self a bs as).trans h2)
      · exact Or.inr (lexLEb_cons_lt h bs as)

/-- Transitivity of the lexicographic comparison. -/
theorem lexLEb_trans : ∀ x y z : Str,
    lexLEb x y = true → lexLEb y z = true → lexLEb x z = true
  | [], _, _, _, _ => rfl
  | a :: as, [], _, h1, _ => by simp [lexLEb] at h1
  | _ :: _, _ :: _, [], _, h2 => by simp [lexLEb] at h2
  | a :: as, b :: bs, c :: cs, h1, h2 => by
    rcases lt_trichotomy a b with hab | hab | hab
    · rcases lt_trichotomy b c with hbc | hbc | hbc
      · exact lexLEb_cons_lt (lt_trans hab hbc) as cs
      · subst hbc
        exact lexLEb_cons_lt hab as cs
      · rw [lexLEb_cons_gt hbc] at h2
        exact absurd h2 (by simp)
    · subst hab
      rcases lt_trichotomy a c with hac | hac | hac
      · exact lexLEb_cons_lt hac as cs
      · subst hac
        rw [lexLEb_cons_self] at h1 h2 ⊢
        exact lexLEb_trans as bs cs h1 h2
      · rw [lexLEb_cons_gt hac] at h2
        exact absurd h2 (by simp)
    · rw [lexLEb_cons_gt hab] at h1
      exact absurd h1 (by simp)

/-- Antisymmetry of the lexicographic comparison. -/
theorem lexLEb_antisymm : ∀ x y : Str,
    lexLEb x y = true → lexLEb y x = true → x = y
  | [], [], _, _ => rfl
  | [], _ :: _, _, h2 => by simp [lexLEb] at h2
  | _ :: _, [], h1, _ => by simp [lexLEb] at h1
  | a :: as, b :: bs, h1, h2 => by
    rcases lt_trichotomy a b with hab | hab | hab
    · rw [lexLEb_cons_gt hab] at h2
      exact absurd h2 (by simp)
    · subst hab
      rw [lexLEb_cons_self] at h1 h2
      rw [lexLEb_antisymm as bs h1 h2]
    · rw [lexLEb_cons_gt hab] at h1
      exact absurd h1 (by simp)

/-- The rank order is total. -/
theorem rankOrder_total : IsTotal (Str × ℕ∞) rankOrder := by
  constructor
  intro x y
  unfold rankOrder
  rcases lt_trichotomy x.2 y.2 with hlt | heq | hgt
  · exact Or.inr (Or.inl hlt)
  · rcases lexLEb_total x.1 y.1 with hl | hl
    · exact Or.inl (Or.inr ⟨heq, hl⟩)
    · exact Or.inr (Or.inr ⟨heq.symm, hl⟩)
  · exact Or.inl (Or.inl hgt)

/-- The rank order is transitive. -/
theorem rankOrder_trans : IsTrans (Str × ℕ∞) rankOrder := by
  constructor
  intro x y z hxy hyz
  unfold rankOrder at hxy hyz ⊢
  rcases hxy with h1 | ⟨e1, l1⟩
  · rcases hyz with h2 | ⟨e2, l2⟩
    · exact Or.inl (lt_trans h2 h1)
    · exact Or.inl (e2 ▸ h1)
  · rcases hyz with h2 | ⟨e2, l2⟩
    · exact Or.inl (e1.symm ▸ h2)
    · exact Or.inr ⟨e1.trans e2, lexLEb_trans x.1 y.1 z.1 l1 l2⟩

/-- The rank order is antisymmetric: entries are pairs of a path and a
count, and equal counts with mutually ordered paths force equal pairs. -/
theorem rankOrder_antisymm : IsAntisymm (Str × ℕ∞) rankOrder := by
  constructor
  intro x y hxy hyx
  unfold rankOrder at hxy hyx
  rcases hxy with h1 | ⟨e1, l1⟩
  · rcases hyx with h2 | ⟨e2, l2⟩
    · exact absurd h1 (lt_asymm h2)
    · exact absurd h1 (by rw [e2]; exact lt_irrefl x.2)
  · rcases hyx with h2 | ⟨e2, l2⟩
    · exact absurd h2 (by rw [e1]; exact lt_irrefl y.2)
    · exact Prod.ext (lexLEb_antisymm x.1 y.1 l1 l2) e1

/-- Claim C6 (amended): the `get_files_changed` ranking is sorted by
descending count with ties broken by ascending lexicographic file path,
and it is deterministic: any two traversal orders of the same file set
(any permutation of the input) give identical output.  The summary
ranking of `show_related_files`, by contrast, breaks ties in counter
insertion order, so it is deterministic only for a fixed history order. -/
theorem get_files_changed_sorted_and_deterministic (target_file : Str)
    (history : List (List Str)) (limit : Nat) (files1 files2 : List Str)
    (h : List.Perm files1 files2) :
    List.Sorted rankOrder (get_files_changed target_file history files1 limit) ∧
    get_files_changed target_file history files1 limit =
      get_files_changed target_file history files2 limit := by
  haveI : IsTotal (Str × ℕ∞) rankOrder := rankOrder_total
  haveI : IsTrans (Str × ℕ∞) rankOrder := rankOrder_trans
  haveI : IsAntisymm (Str × ℕ∞) rankOrder := rankOrder_antisymm
  constructor
  · have hs : List.Pairwise rankOrder
        (List.insertionSort rankOrder (files1.map (rank_entry target_file history))) :=
      List.sorted_insertionSort rankOrder _
    exact hs.sublist (List.take_sublist limit _)
  · have hperm : List.Perm
        (List.insertionSort rankOrder (files1.map (rank_entry target_file history)))
        (List.insertionSort rankOrder (files2.map (rank_entry target_file history))) :=
      ((List.perm_insertionSort rankOrder _).trans (h.map _)).trans
        (List.perm_insertionSort rankOrder _).symm
    have heq := List.eq_of_perm_of_sorted hperm
      (List.sorted_insertionSort rankOrder _) (List.sorted_insertionSort rankOrder _)
    unfold get_files_changed
    rw [heq]

/-- Witness for claim C6: on the demonstration history, the ranking of a
concrete file set is sorted, and two different traversal orders of that
file set give identical rankings. -/
theorem get_files_changed_sorted_and_deterministic_witness :
    List.Sorted rankOrder
      (get_files_changed (strL "a.txt") demoHistory
        [strL "b.txt", strL "c.txt", strL "a.txt"] 10) ∧
    get_files_changed (strL "a.txt") demoHistory
        [strL "b.txt", strL "c.txt", strL "a.txt"] 10 =
      get_files_changed (strL "a.txt") demoHistory
        [strL "a.txt", strL "c.txt", strL "b.txt"] 10 :=
  get_files_changed_sorted_and_deterministic (strL "a.txt") demoHistory 10
    [strL "b.txt", strL "c.txt", strL "a.txt"]
    [strL "a.txt", strL "c.txt", strL "b.txt"] (by decide)

/-- Counterexample to claim C6: the summary ranking of
`show_related_files` does not break ties by ascending path (`b.txt`
stays before `a.txt` when encountered first) and changes when the same
history is traversed in the other order. -/
theorem related_ranking_tie_order_depends_on_history :
    related_summary_ranking [[strL "b.txt"], [strL "a.txt"]] =
      [(strL "b.txt", 1), (strL "a.txt", 1)] ∧
    related_summary_ranking [[strL "b.txt"], [strL "a.txt"]] ≠
      related_summary_ranking [[strL "a.txt"], [strL "b.txt"]] := by
  decide
